import Mathlib

/-!
Verification of the GGUF Shard Atlas memory manager declared in
`src/patches/cuda/gpu_memory_atlas_manager.h`.

The header file declares the data structures (`atlas_entry_t`, `atlas_t`,
`atlas_stats_t`) and the API surface (`atlas_init`, `atlas_lookup`,
`atlas_atomic_swap`, `atlas_memory_fence`, `atlas_add_entry`,
`atlas_remove_entry`, `atlas_update_state`, `atlas_get_stats`), but the
repository snapshot contains no implementation translation unit.  The
operational behaviour of each operation below is therefore modelled from the
specification (spec.md §§3-8): the data model follows the header struct
fields exactly, and each operation's doc comment records which spec clauses
it encodes and which aspects (device transfer, byte-level addresses, CUDA
streams) are abstracted.

Modelling conventions:
* machine integers of the header (`uint64_t` addresses, `uint32_t` ids,
  `uint8_t` state/priority, `uint16_t` ref_count) become `Nat`; none of the
  modelled operations performs arithmetic on them that could overflow, so no
  explicit truncation is needed (`ref_count` is only decremented with
  truncated subtraction, matching the spec's "never decremented below
  zero");
* `memory_size` / `swap_size` are expressed in pages (the spec's unit of
  placement); a physical address is a page index, resident iff it is below
  the pool size;
* the host/device mirror pair (`entries` / `d_entries`) is modelled by the
  authoritative entry list plus a `fence_applied` flag: mutations clear the
  flag, `atlas_memory_fence` (and the fence step inside a successful
  `atlas_atomic_swap`) set it;
* device-parallel page copies always succeed in the model (no hardware
  fault), so the `PartialSwapFailure` error of spec §7 is unreachable here.
-/

namespace GGUFShardAtlas

/-- The four values of the `state` field of `atlas_entry_t`
(header line 23: "RESIDENT, SWAPPED, PENDING, LOCKED"). -/
inductive EntryState where
  | RESIDENT
  | SWAPPED
  | PENDING
  | LOCKED
deriving DecidableEq, Repr

/-- Error kinds of spec §7.  The header reports `cudaError_t`; the spec names
the logical error kinds, which is what the model distinguishes. -/
inductive AtlasError where
  | CapacityExceeded
  | DuplicateAddress
  | NotFound
  | Busy
  | InvalidTransition
  | OutOfSwapSpace
  | PartialSwapFailure
  | AllocationFailure
deriving DecidableEq, Repr

/-- One page-mapping record, mirroring `atlas_entry_t` (header lines 18-26).
The extra `prev_state` field is the model's record of the spec's
"LOCKED → previous" unpin transition (spec §4.1): the header stores the
state in a single `uint8_t` and does not say where "previous" is kept, so
the model keeps it alongside. -/
structure AtlasEntry where
  virtual_addr : Nat
  physical_addr : Nat
  shard_id : Nat
  page_offset : Nat
  state : EntryState
  priority : Nat
  ref_count : Nat
  prev_state : EntryState
deriving DecidableEq, Repr

/-- The atlas, mirroring `atlas_t` (header lines 29-41).  `entry_count` of the
header is the length of `entries`; the device mirror `d_entries` is modelled
by the `fence_applied` flag (true iff the mirror is coherent with `entries`);
`memory_size` / `swap_size` are in pages. -/
structure Atlas where
  entries : List AtlasEntry
  capacity : Nat
  memory_pages : Nat
  swap_pages : Nat
  fence_applied : Bool
deriving DecidableEq, Repr

/-- Number of entries currently in state RESIDENT (their total page
footprint: each entry maps one page). -/
def residentCount (es : List AtlasEntry) : Nat :=
  es.countP (fun e => decide (e.state = EntryState.RESIDENT))

/-- Number of entries currently in state SWAPPED. -/
def swappedCount (es : List AtlasEntry) : Nat :=
  es.countP (fun e => decide (e.state = EntryState.SWAPPED))

/-- First entry with the given `shard_id`, if any. -/
def findByShard (es : List AtlasEntry) (shard_id : Nat) : Option AtlasEntry :=
  es.find? (fun e => decide (e.shard_id = shard_id))

/-- Replace the first element satisfying `p` by its image under `f`. -/
def modifyFirst {α : Type} (p : α → Bool) (f : α → α) : List α → List α
  | [] => []
  | x :: xs => if p x then f x :: xs else x :: modifyFirst p f xs

/-- Modelled from the spec: `atlas_init` (header line 48; spec §6 `Init`).
Allocation always succeeds in the model, yielding an empty table with the
given capacities; the swap-store size is not derivable from the header
signature, so it is a parameter. -/
def atlas_init (capacity memory_pages swap_pages : Nat) : Atlas :=
  ⟨[], capacity, memory_pages, swap_pages, true⟩

/-- Modelled from the spec: `atlas_lookup` (header line 58; spec §4.1
Lookup): returns the matching entry or "not found"; read-only. -/
def atlas_lookup (a : Atlas) (virtual_addr : Nat) : Option AtlasEntry :=
  a.entries.find? (fun e => decide (e.virtual_addr = virtual_addr))

/-- Modelled from the spec: `atlas_add_entry` (header lines 78-84; spec §4.1
AddEntry): fails CapacityExceeded at table capacity, DuplicateAddress on a
virtual-address collision; the new entry starts RESIDENT or SWAPPED
according to where `physical_addr` lives (below `memory_pages` = pool, else
swap store), with `ref_count = 0`.  Adding a page into a full pool region
also fails CapacityExceeded (spec §7: "table or pool full"), which keeps the
footprint invariant of spec §3.  `page_offset` is not an argument of the
header function and starts at 0. -/
def atlas_add_entry (a : Atlas) (virtual_addr physical_addr shard_id priority : Nat) :
    Option AtlasError × Atlas :=
  if a.capacity ≤ a.entries.length then (some AtlasError.CapacityExceeded, a)
  else if a.entries.any (fun e => decide (e.virtual_addr = virtual_addr)) then
    (some AtlasError.DuplicateAddress, a)
  else
    let st : EntryState :=
      if physical_addr < a.memory_pages then EntryState.RESIDENT else EntryState.SWAPPED
    if st = EntryState.RESIDENT ∧ a.memory_pages ≤ residentCount a.entries then
      (some AtlasError.CapacityExceeded, a)
    else if st = EntryState.SWAPPED ∧ a.swap_pages ≤ swappedCount a.entries then
      (some AtlasError.CapacityExceeded, a)
    else
      (none, { a with
        entries := a.entries ++ [⟨virtual_addr, physical_addr, shard_id, 0, st, priority, 0, st⟩],
        fence_applied := false })

/-- Modelled from the spec: `atlas_remove_entry` (header line 89; spec §4.1
RemoveEntry): NotFound if no entry matches the shard id, Busy if the entry
is PENDING or has a positive `ref_count`; on success the entry is removed
(the physical page returning to its pool free list is implicit: the model
keeps pool occupancy as the entry counts themselves). -/
def atlas_remove_entry (a : Atlas) (shard_id : Nat) : Option AtlasError × Atlas :=
  match findByShard a.entries shard_id with
  | none => (some AtlasError.NotFound, a)
  | some e =>
    if e.state = EntryState.PENDING ∨ 0 < e.ref_count then (some AtlasError.Busy, a)
    else
      (none, { a with
        entries := a.entries.eraseP (fun x => decide (x.shard_id = shard_id)),
        fence_applied := false })

/-- The transition graph of spec §4.1: PENDING → RESIDENT, PENDING → SWAPPED,
RESIDENT → PENDING, SWAPPED → PENDING, any → LOCKED, LOCKED → previous. -/
def allowedTransition (cur next prev : EntryState) : Bool :=
  match cur, next with
  | EntryState.PENDING, EntryState.RESIDENT => true
  | EntryState.PENDING, EntryState.SWAPPED => true
  | EntryState.RESIDENT, EntryState.PENDING => true
  | EntryState.SWAPPED, EntryState.PENDING => true
  | _, EntryState.LOCKED => true
  | EntryState.LOCKED, s => decide (s = prev)
  | _, _ => false

/-- Apply an allowed transition to one entry; locking records the previous
state so that the spec's "LOCKED → previous" unpin can restore it. -/
def applyTransition (e : AtlasEntry) (next : EntryState) : AtlasEntry :=
  if next = EntryState.LOCKED then { e with state := next, prev_state := e.state }
  else { e with state := next }

/-- Modelled from the spec: `atlas_update_state` (header lines 94-98; spec
§4.1 UpdateState): NotFound if the shard is absent, InvalidTransition if the
requested transition is not in the §4.1 graph.  A transition that would land
one more page in a full pool region fails instead of breaking the footprint
invariant of spec §3 (CapacityExceeded for the resident pool,
OutOfSwapSpace for the swap store, per the §7 error glossary). -/
def atlas_update_state (a : Atlas) (shard_id : Nat) (new_state : EntryState) :
    Option AtlasError × Atlas :=
  match findByShard a.entries shard_id with
  | none => (some AtlasError.NotFound, a)
  | some e =>
    if ¬ allowedTransition e.state new_state e.prev_state then
      (some AtlasError.InvalidTransition, a)
    else if new_state = EntryState.RESIDENT ∧ a.memory_pages ≤ residentCount a.entries then
      (some AtlasError.CapacityExceeded, a)
    else if new_state = EntryState.SWAPPED ∧ a.swap_pages ≤ swappedCount a.entries then
      (some AtlasError.OutOfSwapSpace, a)
    else
      (none, { a with
        entries := (modifyFirst (fun x => decide (x.shard_id = shard_id))
          (fun x => applyTransition x new_state) a.entries),
        fence_applied := false })

/-- Modelled from the spec: a holder releasing its reference (spec §5:
"ref_count increments/decrements are the only mutation permitted without
going through the PENDING lock"; §3: "ref_count is never decremented below
zero").  No header function is declared for this; it is needed to state the
retry-after-release behaviour of RemoveEntry (spec §8). -/
def atlas_ref_release (a : Atlas) (shard_id : Nat) : Atlas :=
  { a with entries := (modifyFirst (fun e => decide (e.shard_id = shard_id))
      (fun e => { e with ref_count := e.ref_count - 1 }) a.entries) }

/-- Does the entry belong to one of the requested shards? -/
def requested (sids : List Nat) (e : AtlasEntry) : Bool :=
  sids.contains e.shard_id

/-- A requested entry that must be fetched (currently SWAPPED). -/
def isFetch (sids : List Nat) (e : AtlasEntry) : Bool :=
  requested sids e && decide (e.state = EntryState.SWAPPED)

/-- Step 1 of the swap algorithm (spec §4.2): mark each requested non-resident
entry PENDING (fetch). -/
def markFetch (sids : List Nat) (e : AtlasEntry) : AtlasEntry :=
  if isFetch sids e then { e with state := EntryState.PENDING } else e

/-- Roll a fetch mark back to SWAPPED (spec §4.2: "failed transitions are
rolled back to their prior state before returning"). -/
def unmarkFetch (sids : List Nat) (e : AtlasEntry) : AtlasEntry :=
  if requested sids e && decide (e.state = EntryState.PENDING) then
    { e with state := EntryState.SWAPPED }
  else e

/-- Step 4 of the swap algorithm: a completed fetch transitions PENDING →
RESIDENT. -/
def completePending (sids : List Nat) (e : AtlasEntry) : AtlasEntry :=
  if requested sids e && decide (e.state = EntryState.PENDING) then
    { e with state := EntryState.RESIDENT }
  else e

/-- Every requested shard id has an entry in the table. -/
def allShardsPresent (es : List AtlasEntry) (sids : List Nat) : Bool :=
  sids.all (fun sid => es.any (fun e => decide (e.shard_id = sid)))

/-- Some requested entry is already PENDING (in-flight transition of another
call, spec §4.1/§4.2 Busy) or LOCKED (pinned, cannot enter a transition). -/
def anyBlocked (es : List AtlasEntry) (sids : List Nat) : Bool :=
  es.any (fun e => requested sids e &&
    (decide (e.state = EntryState.PENDING) || decide (e.state = EntryState.LOCKED)))

/-- Eviction eligibility (spec §4.2 step 2): RESIDENT, `ref_count = 0`, not
LOCKED (implied by RESIDENT), and not itself one of the requested shards
(they must end up resident). -/
def victimEligible (sids : List Nat) (e : AtlasEntry) : Bool :=
  decide (e.state = EntryState.RESIDENT) && decide (e.ref_count = 0) && !requested sids e

/-- Eligible eviction candidates paired with their table position (position
order is insertion order: AddEntry appends). -/
def victimCandidates (es : List AtlasEntry) (sids : List Nat) : List (Nat × AtlasEntry) :=
  es.enum.filter (fun p => victimEligible sids p.2)

/-- Eviction preference order (spec §4.2 step 2): ascending priority, ties
broken by oldest insertion (smaller table position). -/
def victimLE (p q : Nat × AtlasEntry) : Bool :=
  decide (p.2.priority < q.2.priority ∨ (p.2.priority = q.2.priority ∧ p.1 ≤ q.1))

/-- Insert one candidate into a list sorted by `victimLE`. -/
def insertVictim (p : Nat × AtlasEntry) : List (Nat × AtlasEntry) → List (Nat × AtlasEntry)
  | [] => [p]
  | q :: qs => if victimLE q p then q :: insertVictim p qs else p :: q :: qs

/-- Sort candidates by `victimLE` (insertion sort). -/
def sortVictims : List (Nat × AtlasEntry) → List (Nat × AtlasEntry)
  | [] => []
  | p :: ps => insertVictim p (sortVictims ps)

/-- The victims actually evicted: the `k` most evictable candidates. -/
def selectVictims (es : List AtlasEntry) (sids : List Nat) (k : Nat) :
    List (Nat × AtlasEntry) :=
  (sortVictims (victimCandidates es sids)).take k

/-- Overwrite the state of the entry at position `i` (no-op out of range). -/
def setStateAt (es : List AtlasEntry) (i : Nat) (s : EntryState) : List AtlasEntry :=
  match es[i]? with
  | some e => es.set i { e with state := s }
  | none => es

/-- Step 4 of the swap algorithm for evictions: completed evictions
transition to SWAPPED. -/
def applyEvict (es : List AtlasEntry) (idxs : List Nat) : List AtlasEntry :=
  idxs.foldl (fun l i => setStateAt l i EntryState.SWAPPED) es

/-- Spec §4.2 step 1: the number of requested entries that must be fetched
(currently SWAPPED). -/
def swapFetchCount (a : Atlas) (sids : List Nat) : Nat :=
  a.entries.countP (isFetch sids)

/-- Spec §4.2 step 2: pages of resident capacity still missing after
counting free pool space (`memory_pages` minus the resident footprint of
the marked table); this many victims must be evicted. -/
def swapNeed (a : Atlas) (sids : List Nat) : Nat :=
  swapFetchCount a sids -
    (a.memory_pages - residentCount (a.entries.map (markFetch sids)))

/-- Spec §4.2 step 2: the chosen eviction victims, in eviction order. -/
def swapVictims (a : Atlas) (sids : List Nat) : List (Nat × AtlasEntry) :=
  selectVictims (a.entries.map (markFetch sids)) sids (swapNeed a sids)

/-- Modelled from the spec: `atlas_atomic_swap` (header lines 63-68; spec
§4.2): bring every entry of the requested shards RESIDENT as one atomic
unit.  NotFound if a requested shard has no entry (the header gives no
fetch-from-initial-source path to model); Busy if a requested entry is
already PENDING or is LOCKED; CapacityExceeded if too few eligible victims
exist; OutOfSwapSpace if the evicted pages cannot all be placed in the swap
store.  The two capacity failures roll the fetch marks of step 1 back; the
device copies of step 3 always succeed in the model, so on success all
marked entries reach their target state and the coherency fence is applied. -/
def atlas_atomic_swap (a : Atlas) (sids : List Nat) : Option AtlasError × Atlas :=
  if ¬ allShardsPresent a.entries sids then (some AtlasError.NotFound, a)
  else if anyBlocked a.entries sids then (some AtlasError.Busy, a)
  else if (swapVictims a sids).length < swapNeed a sids then
    (some AtlasError.CapacityExceeded,
      { a with entries := (a.entries.map (markFetch sids)).map (unmarkFetch sids) })
  else if a.swap_pages - swappedCount a.entries < swapNeed a sids then
    (some AtlasError.OutOfSwapSpace,
      { a with entries := (a.entries.map (markFetch sids)).map (unmarkFetch sids) })
  else
    (none, { a with
      entries := (applyEvict ((a.entries.map (markFetch sids)).map (completePending sids))
        ((swapVictims a sids).map (fun p => p.1))),
      fence_applied := true })

/-- Modelled from the spec: `atlas_memory_fence` (header line 73; spec §4.3):
reconciles the device mirror with the host copy; mutates no entry. -/
def atlas_memory_fence (a : Atlas) : Option AtlasError × Atlas :=
  (none, { a with fence_applied := true })

/-- The mutating table operations of the public API, for stating whole-run
invariants (spec §8: "checked after every operation"). -/
inductive AtlasOp where
  | add (virtual_addr physical_addr shard_id priority : Nat)
  | remove (shard_id : Nat)
  | update (shard_id : Nat) (new_state : EntryState)
  | swap (sids : List Nat)
  | release (shard_id : Nat)
  | fence
deriving DecidableEq, Repr

/-- The atlas an operation leaves behind (errors included: failed calls also
return a table, possibly rolled back). -/
def applyOp (a : Atlas) : AtlasOp → Atlas
  | AtlasOp.add v p s pr => (atlas_add_entry a v p s pr).2
  | AtlasOp.remove s => (atlas_remove_entry a s).2
  | AtlasOp.update s ns => (atlas_update_state a s ns).2
  | AtlasOp.swap sids => (atlas_atomic_swap a sids).2
  | AtlasOp.release s => atlas_ref_release a s
  | AtlasOp.fence => (atlas_memory_fence a).2

/-- Run a sequence of operations from a starting atlas. -/
def runOps (a : Atlas) (ops : List AtlasOp) : Atlas :=
  ops.foldl applyOp a

/-- A concrete atlas for exercising the theorems on closed inputs: three
resident pages filling a three-page pool (priorities 10, 10, 50, inserted as
shards 1, 2, 3) and one swapped page (shard 4), swap store of four pages. -/
def sampleEntry1 : AtlasEntry := ⟨100, 0, 1, 0, EntryState.RESIDENT, 10, 0, EntryState.RESIDENT⟩

/-- Second sample entry: the later-inserted of the two priority-10 pages. -/
def sampleEntry2 : AtlasEntry := ⟨200, 1, 2, 0, EntryState.RESIDENT, 10, 0, EntryState.RESIDENT⟩

/-- Third sample entry: resident, priority 50. -/
def sampleEntry3 : AtlasEntry := ⟨300, 2, 3, 0, EntryState.RESIDENT, 50, 0, EntryState.RESIDENT⟩

/-- Fourth sample entry: swapped out, so a swap request for shard 4 causes
memory pressure on the full pool. -/
def sampleEntry4 : AtlasEntry := ⟨400, 10, 4, 0, EntryState.SWAPPED, 99, 0, EntryState.SWAPPED⟩

/-- The sample atlas assembled from the four entries above. -/
def sampleAtlas : Atlas :=
  ⟨[sampleEntry1, sampleEntry2, sampleEntry3, sampleEntry4], 8, 3, 4, true⟩

/-- A sample atlas whose single entry is held by two readers
(`ref_count = 2`), for the RemoveEntry retry scenario. -/
def sampleBusyAtlas : Atlas :=
  ⟨[⟨500, 0, 7, 0, EntryState.RESIDENT, 5, 2, EntryState.RESIDENT⟩], 4, 2, 2, true⟩

/-! ### Helper lemmas about the list-level operations -/

theorem modifyFirst_countP {α : Type} (p : α → Bool) (f : α → α) (q : α → Bool)
    (es : List α) (e : α) (h : es.find? p = some e) :
    (modifyFirst p f es).countP q + (if q e then 1 else 0) =
      es.countP q + (if q (f e) then 1 else 0) := by
  induction es with
  | nil => simp at h
  | cons x xs ih =>
    cases hp : p x
    · rw [List.find?_cons_of_neg _ (by simp [hp])] at h
      have hih := ih h
      simp only [modifyFirst, hp, Bool.false_eq_true, if_false, List.countP_cons]
      split_ifs at hih ⊢ <;> omega
    · rw [List.find?_cons_of_pos _ hp] at h
      injection h with h
      subst h
      simp only [modifyFirst, hp, if_true, List.countP_cons]
      split_ifs <;> omega

theorem eraseP_countP {α : Type} (p q : α → Bool)
    (es : List α) (e : α) (h : es.find? p = some e) :
    (es.eraseP p).countP q + (if q e then 1 else 0) = es.countP q := by
  induction es with
  | nil => simp at h
  | cons x xs ih =>
    cases hp : p x
    · rw [List.find?_cons_of_neg _ (by simp [hp])] at h
      rw [List.eraseP_cons_of_neg (by simp [hp])]
      have hih := ih h
      simp only [List.countP_cons]
      split_ifs at hih ⊢ <;> omega
    · rw [List.find?_cons_of_pos _ hp] at h
      injection h with h
      subst h
      rw [List.eraseP_cons_of_pos hp]
      simp [List.countP_cons]

theorem find?_modifyFirst {α : Type} (p : α → Bool) (f : α → α)
    (es : List α) (e : α) (h : es.find? p = some e) (hf : p (f e) = true) :
    (modifyFirst p f es).find? p = some (f e) := by
  induction es with
  | nil => simp at h
  | cons x xs ih =>
    cases hp : p x
    · rw [List.find?_cons_of_neg _ (by simp [hp])] at h
      simp only [modifyFirst, hp, Bool.false_eq_true, if_false]
      rw [List.find?_cons_of_neg _ (by simp [hp])]
      exact ih h
    · rw [List.find?_cons_of_pos _ hp] at h
      injection h with h
      subst h
      simp only [modifyFirst, hp, if_true]
      exact List.find?_cons_of_pos _ hf

/-- Releasing a reference decrements exactly the found entry's counter. -/
theorem ref_release_find (a : Atlas) (sid : Nat) (e : AtlasEntry)
    (h : findByShard a.entries sid = some e) :
    findByShard (atlas_ref_release a sid).entries sid =
      some { e with ref_count := e.ref_count - 1 } := by
  have hsid : decide (e.shard_id = sid) = true := by
    simpa using List.find?_some h
  have hf : decide (({ e with ref_count := e.ref_count - 1 } : AtlasEntry).shard_id = sid)
      = true := hsid
  have h' : a.entries.find? (fun x => decide (x.shard_id = sid)) = some e := h
  simpa [atlas_ref_release, findByShard] using
    find?_modifyFirst (fun x => decide (x.shard_id = sid))
      (fun x => { x with ref_count := x.ref_count - 1 }) a.entries e h' hf

/-- Iterating release `n` times lowers the counter by `n`. -/
theorem ref_release_iterate (sid : Nat) : ∀ (n : Nat) (a : Atlas) (e : AtlasEntry),
    findByShard a.entries sid = some e →
    findByShard ((fun x => atlas_ref_release x sid)^[n] a).entries sid =
      some { e with ref_count := e.ref_count - n } := by
  intro n
  induction n with
  | zero =>
    intro a e h
    simpa using h
  | succ n ih =>
    intro a e h
    rw [Function.iterate_succ_apply]
    have h2 := ih (atlas_ref_release a sid) _ (ref_release_find a sid e h)
    have harith : e.ref_count - 1 - n = e.ref_count - (n + 1) := by omega
    simpa [harith] using h2

/-- The success case of RemoveEntry, shared by two conjuncts of the
RemoveEntry contract. -/
theorem remove_entry_success (a : Atlas) (sid : Nat) (e : AtlasEntry)
    (h : findByShard a.entries sid = some e)
    (hs : e.state ≠ EntryState.PENDING) (hr : e.ref_count = 0) :
    atlas_remove_entry a sid =
      (none, { a with
        entries := a.entries.eraseP (fun x => decide (x.shard_id = sid)),
        fence_applied := false }) := by
  simp only [atlas_remove_entry, h]
  rw [if_neg]
  simp [hs, hr]

/-- The shape of every successful AddEntry: no duplicate was present and the
new entry is appended with the state determined by the physical address. -/
theorem add_entry_success (a : Atlas) (v p sid pr : Nat) (a' : Atlas)
    (h : atlas_add_entry a v p sid pr = (none, a')) :
    a.entries.any (fun e => decide (e.virtual_addr = v)) = false ∧
    a'.entries = a.entries ++
      [⟨v, p, sid, 0,
        (if p < a.memory_pages then EntryState.RESIDENT else EntryState.SWAPPED), pr, 0,
        (if p < a.memory_pages then EntryState.RESIDENT else EntryState.SWAPPED)⟩] := by
  simp only [atlas_add_entry] at h
  by_cases hcap : a.capacity ≤ a.entries.length
  · rw [if_pos hcap] at h
    exact absurd h (by simp)
  rw [if_neg hcap] at h
  by_cases hdup : (a.entries.any fun e => decide (e.virtual_addr = v)) = true
  · rw [if_pos hdup] at h
    exact absurd h (by simp)
  rw [if_neg hdup] at h
  refine ⟨by simpa using hdup, ?_⟩
  by_cases hp : p < a.memory_pages
  · simp only [if_pos hp] at h ⊢
    by_cases hg : a.memory_pages ≤ residentCount a.entries
    · simp [hg] at h
    · rw [if_neg (by simp [hg]), if_neg (by simp)] at h
      have h2 : _ = a' := congrArg Prod.snd h
      rw [← h2]
  · simp only [if_neg hp] at h ⊢
    by_cases hg : a.swap_pages ≤ swappedCount a.entries
    · simp [hg] at h
    · rw [if_neg (by simp), if_neg (by simp [hg])] at h
      have h2 : _ = a' := congrArg Prod.snd h
      rw [← h2]

/-! ### Claim theorems -/

/-- C5: AddEntry fails with CapacityExceeded when the table already holds
`capacity` entries, fails with DuplicateAddress when the virtual address is
already present (and the table is below capacity, the check performed
first), and on success appends an entry whose state is RESIDENT or SWAPPED
according to where `physical_addr` lives, with `ref_count = 0`. -/
theorem add_entry_contract (a : Atlas) (v p sid pr : Nat) :
    (a.capacity ≤ a.entries.length →
      atlas_add_entry a v p sid pr = (some AtlasError.CapacityExceeded, a)) ∧
    (a.entries.length < a.capacity → (∃ e ∈ a.entries, e.virtual_addr = v) →
      atlas_add_entry a v p sid pr = (some AtlasError.DuplicateAddress, a)) ∧
    (∀ a', atlas_add_entry a v p sid pr = (none, a') →
      ∃ e, a'.entries = a.entries ++ [e] ∧ e.virtual_addr = v ∧
        e.physical_addr = p ∧ e.shard_id = sid ∧ e.priority = pr ∧ e.ref_count = 0 ∧
        e.state =
          (if p < a.memory_pages then EntryState.RESIDENT else EntryState.SWAPPED)) := by
  refine ⟨?_, ?_, ?_⟩
  · intro hcap
    simp [atlas_add_entry, hcap]
  · intro hcap hdup
    have h1 : a.entries.any (fun e => decide (e.virtual_addr = v)) = true := by
      rw [List.any_eq_true]
      obtain ⟨e, he, hv⟩ := hdup
      exact ⟨e, he, by simpa using hv⟩
    simp [atlas_add_entry, Nat.not_le.mpr hcap, h1]
  · intro a' h
    obtain ⟨-, he⟩ := add_entry_success a v p sid pr a' h
    exact ⟨_, he, rfl, rfl, rfl, rfl, rfl, rfl⟩

/-- C5 witness: the three cases exercised on concrete atlases (a one-entry
table at capacity 1; the sample atlas with virtual address 100 present; a
fresh swapped-side insert). -/
theorem add_entry_contract_witness :
    atlas_add_entry ⟨[sampleEntry1], 1, 3, 4, true⟩ 900 0 9 1 =
      (some AtlasError.CapacityExceeded, ⟨[sampleEntry1], 1, 3, 4, true⟩) ∧
    atlas_add_entry sampleAtlas 100 1 9 1 = (some AtlasError.DuplicateAddress, sampleAtlas) ∧
    ∃ e, (atlas_add_entry sampleAtlas 500 11 5 1).2.entries = sampleAtlas.entries ++ [e] ∧
      e.virtual_addr = 500 ∧ e.physical_addr = 11 ∧ e.shard_id = 5 ∧ e.priority = 1 ∧
      e.ref_count = 0 ∧ e.state = (if 11 < sampleAtlas.memory_pages then
        EntryState.RESIDENT else EntryState.SWAPPED) := by
  refine ⟨(add_entry_contract _ 900 0 9 1).1 (by decide),
    (add_entry_contract sampleAtlas 100 1 9 1).2.1 (by decide)
      ⟨sampleEntry1, by decide, by decide⟩, ?_⟩
  exact (add_entry_contract sampleAtlas 500 11 5 1).2.2 _ (by decide)

/-- C9: a Lookup of the just-added virtual address immediately after a
successful AddEntry returns the just-added entry, whose `shard_id` is the
one passed to AddEntry. -/
theorem lookup_after_add (a : Atlas) (v p sid pr : Nat) (a' : Atlas)
    (h : atlas_add_entry a v p sid pr = (none, a')) :
    ∃ e, atlas_lookup a' v = some e ∧ e.shard_id = sid ∧
      a'.entries = a.entries ++ [e] := by
  obtain ⟨hdup, he⟩ := add_entry_success a v p sid pr a' h
  refine ⟨_, ?_, rfl, he⟩
  rw [atlas_lookup, he, List.find?_append]
  have h1 : a.entries.find? (fun e => decide (e.virtual_addr = v)) = none := by
    rw [List.find?_eq_none]
    intro x hx
    have := List.any_eq_false.mp hdup x hx
    simpa using this
  rw [h1]
  simp

/-- C9 witness: adding shard 5 at virtual address 500 to the sample atlas
and looking 500 up immediately afterwards. -/
theorem lookup_after_add_witness :
    ∃ e, atlas_lookup (atlas_add_entry sampleAtlas 500 11 5 1).2 500 = some e ∧
      e.shard_id = 5 ∧
      (atlas_add_entry sampleAtlas 500 11 5 1).2.entries = sampleAtlas.entries ++ [e] :=
  lookup_after_add sampleAtlas 500 11 5 1 _ (by decide)

/-- C10: Lookup returns "not found" exactly when no entry carries the
queried virtual address, and any entry it returns is in the table and
carries the queried address; being a pure function of the atlas, it mutates
nothing. -/
theorem lookup_contract (a : Atlas) (v : Nat) :
    (atlas_lookup a v = none ↔ ∀ e ∈ a.entries, e.virtual_addr ≠ v) ∧
    (∀ e, atlas_lookup a v = some e → e.virtual_addr = v ∧ e ∈ a.entries) := by
  constructor
  · rw [atlas_lookup, List.find?_eq_none]
    constructor
    · intro h e he
      simpa using h e he
    · intro h e he
      simpa using h e he
  · intro e h
    have h1 := List.find?_some h
    have h2 := List.mem_of_find?_eq_some h
    exact ⟨by simpa using h1, h2⟩

/-- C10 witness: virtual address 999 is absent from the sample atlas, and
looking up 300 returns the third sample entry. -/
theorem lookup_contract_witness :
    atlas_lookup sampleAtlas 999 = none ∧
    sampleEntry3.virtual_addr = 300 ∧ sampleEntry3 ∈ sampleAtlas.entries := by
  refine ⟨(lookup_contract sampleAtlas 999).1.mpr ?_, ?_⟩
  · intro e he
    fin_cases he <;> decide
  · exact (lookup_contract sampleAtlas 300).2 sampleEntry3 (by decide)

/-- C7: UpdateState fails with NotFound when the shard is absent, fails with
InvalidTransition when the requested transition is not allowed from the
current state, applies only allowed transitions, and the allowed-transition
relation is exactly the spec §4.1 graph. -/
theorem update_state_contract (a : Atlas) (sid : Nat) (ns : EntryState) :
    (findByShard a.entries sid = none →
      atlas_update_state a sid ns = (some AtlasError.NotFound, a)) ∧
    (∀ e, findByShard a.entries sid = some e →
      allowedTransition e.state ns e.prev_state = false →
      atlas_update_state a sid ns = (some AtlasError.InvalidTransition, a)) ∧
    (∀ a', atlas_update_state a sid ns = (none, a') →
      ∃ e, findByShard a.entries sid = some e ∧
        allowedTransition e.state ns e.prev_state = true ∧
        a'.entries = modifyFirst (fun x => decide (x.shard_id = sid))
          (fun x => applyTransition x ns) a.entries) ∧
    (∀ cur prev, allowedTransition cur ns prev = true ↔
      ((cur = EntryState.PENDING ∧ ns = EntryState.RESIDENT) ∨
       (cur = EntryState.PENDING ∧ ns = EntryState.SWAPPED) ∨
       (cur = EntryState.RESIDENT ∧ ns = EntryState.PENDING) ∨
       (cur = EntryState.SWAPPED ∧ ns = EntryState.PENDING) ∨
       ns = EntryState.LOCKED ∨
       (cur = EntryState.LOCKED ∧ ns = prev))) := by
  refine ⟨?_, ?_, ?_, ?_⟩
  · intro h
    simp [atlas_update_state, h]
  · intro e h hall
    simp [atlas_update_state, h, hall]
  · intro a' h
    simp only [atlas_update_state] at h
    split at h
    · exact absurd h (by simp)
    rename_i e he
    by_cases hall : allowedTransition e.state ns e.prev_state = true
    · rw [if_neg (by simp [hall])] at h
      by_cases hg1 : ns = EntryState.RESIDENT ∧ a.memory_pages ≤ residentCount a.entries
      · rw [if_pos hg1] at h
        exact absurd h (by simp)
      rw [if_neg hg1] at h
      by_cases hg2 : ns = EntryState.SWAPPED ∧ a.swap_pages ≤ swappedCount a.entries
      · rw [if_pos hg2] at h
        exact absurd h (by simp)
      rw [if_neg hg2] at h
      refine ⟨e, he, hall, ?_⟩
      have h2 : _ = a' := congrArg Prod.snd h
      rw [← h2]
    · rw [if_pos (by simpa using hall)] at h
      exact absurd h (by simp)
  · intro cur prev
    cases ns <;> cases cur <;> cases prev <;> decide

/-- C7 witness: on the sample atlas, shard 9 is absent (NotFound), the
RESIDENT→SWAPPED shortcut on shard 1 is rejected (InvalidTransition), and
pinning shard 1 (any→LOCKED) goes through. -/
theorem update_state_contract_witness :
    atlas_update_state sampleAtlas 9 EntryState.LOCKED =
      (some AtlasError.NotFound, sampleAtlas) ∧
    atlas_update_state sampleAtlas 1 EntryState.SWAPPED =
      (some AtlasError.InvalidTransition, sampleAtlas) ∧
    ∃ e, findByShard sampleAtlas.entries 1 = some e ∧
      allowedTransition e.state EntryState.LOCKED e.prev_state = true ∧
      (atlas_update_state sampleAtlas 1 EntryState.LOCKED).2.entries =
        modifyFirst (fun x => decide (x.shard_id = 1))
          (fun x => applyTransition x EntryState.LOCKED) sampleAtlas.entries := by
  refine ⟨(update_state_contract sampleAtlas 9 EntryState.LOCKED).1 (by decide),
    (update_state_contract sampleAtlas 1 EntryState.SWAPPED).2.1 sampleEntry1
      (by decide) (by decide), ?_⟩
  exact (update_state_contract sampleAtlas 1 EntryState.LOCKED).2.2.1 _ (by decide)

/-- C6: RemoveEntry fails with NotFound when the shard is absent, fails with
Busy when the entry is PENDING or referenced, succeeds otherwise (removing
the entry; the page returning to the pool free list is implicit in the
model, which tracks occupancy through the entries themselves), and a call
that failed Busy on a referenced entry succeeds once the holders have
released the reference count down to zero. -/
theorem remove_entry_contract (a : Atlas) (sid : Nat) :
    (findByShard a.entries sid = none →
      atlas_remove_entry a sid = (some AtlasError.NotFound, a)) ∧
    (∀ e, findByShard a.entries sid = some e →
      (e.state = EntryState.PENDING ∨ 0 < e.ref_count) →
      atlas_remove_entry a sid = (some AtlasError.Busy, a)) ∧
    (∀ e, findByShard a.entries sid = some e →
      e.state ≠ EntryState.PENDING → e.ref_count = 0 →
      atlas_remove_entry a sid =
        (none, { a with
          entries := a.entries.eraseP (fun x => decide (x.shard_id = sid)),
          fence_applied := false })) ∧
    (∀ e, findByShard a.entries sid = some e →
      e.state ≠ EntryState.PENDING → 0 < e.ref_count →
      atlas_remove_entry a sid = (some AtlasError.Busy, a) ∧
      (atlas_remove_entry ((fun x => atlas_ref_release x sid)^[e.ref_count] a) sid).1 =
        none) := by
  refine ⟨?_, ?_, ?_, ?_⟩
  · intro h
    simp [atlas_remove_entry, h]
  · intro e h hb
    simp [atlas_remove_entry, h, hb]
  · intro e h hs hr
    exact remove_entry_success a sid e h hs hr
  · intro e h hs hr
    refine ⟨by simp [atlas_remove_entry, h, Or.inr hr], ?_⟩
    have hfind := ref_release_iterate sid e.ref_count a e h
    have hzero : e.ref_count - e.ref_count = 0 := Nat.sub_self _
    rw [remove_entry_success _ sid { e with ref_count := e.ref_count - e.ref_count }
      hfind hs hzero]

/-- C6 witness: on the two-reader sample atlas, removing shard 7 fails Busy,
and succeeds after both holders release; on the main sample atlas, shard 9
is NotFound and shard 2 removes cleanly. -/
theorem remove_entry_contract_witness :
    atlas_remove_entry sampleAtlas 9 = (some AtlasError.NotFound, sampleAtlas) ∧
    (atlas_remove_entry sampleAtlas 2).1 = none ∧
    atlas_remove_entry sampleBusyAtlas 7 = (some AtlasError.Busy, sampleBusyAtlas) ∧
    (atlas_remove_entry
      ((fun x => atlas_ref_release x 7)^[2] sampleBusyAtlas) 7).1 = none := by
  have he : findByShard sampleBusyAtlas.entries 7 =
      some ⟨500, 0, 7, 0, EntryState.RESIDENT, 5, 2, EntryState.RESIDENT⟩ := by decide
  have h4 := (remove_entry_contract sampleBusyAtlas 7).2.2.2 _ he
    (by decide) (by decide)
  refine ⟨(remove_entry_contract sampleAtlas 9).1 (by decide), ?_, h4.1, h4.2⟩
  rw [(remove_entry_contract sampleAtlas 2).2.2.1 sampleEntry2 (by decide)
    (by decide) (by decide)]

/-- Unfolding of the presence check of the swap call. -/
theorem allShardsPresent_eq_true (es : List AtlasEntry) (sids : List Nat) :
    allShardsPresent es sids = true ↔ ∀ sid ∈ sids, ∃ e ∈ es, e.shard_id = sid := by
  simp [allShardsPresent, List.all_eq_true, List.any_eq_true]

/-- Unfolding of the busy check of the swap call. -/
theorem anyBlocked_eq_false (es : List AtlasEntry) (sids : List Nat) :
    anyBlocked es sids = false ↔ ∀ e ∈ es, requested sids e = true →
      e.state ≠ EntryState.PENDING ∧ e.state ≠ EntryState.LOCKED := by
  simp [anyBlocked, List.any_eq_false, not_or]

/-- C8: AtomicSwap on a shard set whose entries are all already RESIDENT
succeeds and leaves every entry untouched (same state, physical_addr,
priority, ref_count); only the coherency flag is refreshed. -/
theorem atomic_swap_idempotent (a : Atlas) (sids : List Nat)
    (hpres : ∀ sid ∈ sids, ∃ e ∈ a.entries, e.shard_id = sid)
    (hres : ∀ e ∈ a.entries, requested sids e = true → e.state = EntryState.RESIDENT) :
    atlas_atomic_swap a sids = (none, { a with fence_applied := true }) := by
  have hpresent : allShardsPresent a.entries sids = true :=
    (allShardsPresent_eq_true a.entries sids).mpr hpres
  have hblocked : anyBlocked a.entries sids = false := by
    rw [anyBlocked_eq_false]
    intro e he hreq
    rw [hres e he hreq]
    exact ⟨by intro h; exact absurd h (by decide), by intro h; exact absurd h (by decide)⟩
  have hmarkp : ∀ e ∈ a.entries, markFetch sids e = id e := by
    intro e he
    cases hreq : requested sids e
    · simp [markFetch, isFetch, hreq]
    · simp [markFetch, isFetch, hreq, hres e he hreq]
  have hmark : a.entries.map (markFetch sids) = a.entries := by
    rw [List.map_congr_left hmarkp, List.map_id]
  have hfc : a.entries.countP (isFetch sids) = 0 := by
    rw [List.countP_eq_zero]
    intro e he
    cases hreq : requested sids e
    · simp [isFetch, hreq]
    · simp [isFetch, hreq, hres e he hreq]
  have hcompp : ∀ e ∈ a.entries, completePending sids e = id e := by
    intro e he
    cases hreq : requested sids e
    · simp [completePending, hreq]
    · simp [completePending, hreq, hres e he hreq]
  have hcomplete : a.entries.map (completePending sids) = a.entries := by
    rw [List.map_congr_left hcompp, List.map_id]
  have hneed : swapNeed a sids = 0 := by
    simp [swapNeed, swapFetchCount, hfc]
  have hvict : swapVictims a sids = [] := by
    simp [swapVictims, hneed, selectVictims]
  simp only [atlas_atomic_swap, hpresent, hblocked, hmark, hcomplete, hneed, hvict]
  simp [applyEvict]

/-- C8 witness: requesting the three already-resident shards of the sample
atlas changes no entry. -/
theorem atomic_swap_idempotent_witness :
    atlas_atomic_swap sampleAtlas [1, 2, 3] =
      (none, { sampleAtlas with fence_applied := true }) :=
  atomic_swap_idempotent sampleAtlas [1, 2, 3] (by decide) (by decide)

/-! ### The eviction-selection order -/

theorem victimLE_total (p q : Nat × AtlasEntry) :
    victimLE p q = true ∨ victimLE q p = true := by
  simp only [victimLE, decide_eq_true_eq]
  omega

theorem victimLE_trans (p q r : Nat × AtlasEntry)
    (h1 : victimLE p q = true) (h2 : victimLE q r = true) : victimLE p r = true := by
  simp only [victimLE, decide_eq_true_eq] at h1 h2 ⊢
  omega

theorem insertVictim_perm (p : Nat × AtlasEntry) (l : List (Nat × AtlasEntry)) :
    (insertVictim p l).Perm (p :: l) := by
  induction l with
  | nil => exact List.Perm.refl _
  | cons q qs ih =>
    cases hle : victimLE q p
    · simp only [insertVictim, hle, Bool.false_eq_true, if_false]
      exact List.Perm.refl _
    · simp only [insertVictim, hle, if_true]
      exact (ih.cons q).trans (List.Perm.swap p q qs)

theorem sortVictims_perm (l : List (Nat × AtlasEntry)) : (sortVictims l).Perm l := by
  induction l with
  | nil => exact List.Perm.refl _
  | cons p ps ih => exact (insertVictim_perm p (sortVictims ps)).trans (ih.cons p)

theorem insertVictim_sorted (p : Nat × AtlasEntry) (l : List (Nat × AtlasEntry))
    (h : l.Pairwise (fun x y => victimLE x y = true)) :
    (insertVictim p l).Pairwise (fun x y => victimLE x y = true) := by
  induction l with
  | nil => simp [insertVictim]
  | cons q qs ih =>
    obtain ⟨hq, hqs⟩ := List.pairwise_cons.mp h
    cases hle : victimLE q p
    · have hpq : victimLE p q = true :=
        (victimLE_total p q).resolve_right (by simp [hle])
      simp only [insertVictim, hle, Bool.false_eq_true, if_false]
      rw [List.pairwise_cons]
      refine ⟨?_, h⟩
      intro y hy
      rcases List.mem_cons.mp hy with rfl | hy2
      · exact hpq
      · exact victimLE_trans p q y hpq (hq y hy2)
    · simp only [insertVictim, hle, if_true]
      rw [List.pairwise_cons]
      refine ⟨?_, ih hqs⟩
      intro y hy
      rcases List.mem_cons.mp ((insertVictim_perm p qs).mem_iff.mp hy) with rfl | hy2
      · exact hle
      · exact hq y hy2

theorem sortVictims_sorted (l : List (Nat × AtlasEntry)) :
    (sortVictims l).Pairwise (fun x y => victimLE x y = true) := by
  induction l with
  | nil => simp [sortVictims]
  | cons p ps ih => exact insertVictim_sorted p _ ih

/-- Every selected victim sits at its stated table position and is eligible:
RESIDENT, unreferenced, and not itself requested. -/
theorem selectVictims_mem (es : List AtlasEntry) (sids : List Nat) (k : Nat)
    (p : Nat × AtlasEntry) (hp : p ∈ selectVictims es sids k) :
    es[p.1]? = some p.2 ∧ p.2.state = EntryState.RESIDENT ∧ p.2.ref_count = 0 ∧
      requested sids p.2 = false := by
  have h1 : p ∈ sortVictims (victimCandidates es sids) :=
    (List.take_sublist k _).subset hp
  have h2 : p ∈ victimCandidates es sids := (sortVictims_perm _).mem_iff.mp h1
  rw [victimCandidates, List.mem_filter] at h2
  obtain ⟨hmem, helig⟩ := h2
  have hget := List.mem_enum_iff_getElem?.mp hmem
  simp only [victimEligible, Bool.and_eq_true, decide_eq_true_eq,
    Bool.not_eq_true'] at helig
  exact ⟨hget, helig.1.1, helig.1.2, helig.2⟩

/-- C3: eviction victims are drawn only from entries that are RESIDENT with
`ref_count = 0` (hence not LOCKED), the selection is ordered by ascending
priority with ties broken by earliest insertion (smaller table position),
and in the concrete [10, 10, 50] scenario with one eviction required, the
earlier-inserted of the two priority-10 entries is the one evicted. -/
theorem eviction_selection_policy :
    (∀ (es : List AtlasEntry) (sids : List Nat) (k : Nat) (p : Nat × AtlasEntry),
      p ∈ selectVictims es sids k →
      es[p.1]? = some p.2 ∧ p.2.state = EntryState.RESIDENT ∧ p.2.ref_count = 0 ∧
        p.2.state ≠ EntryState.LOCKED) ∧
    (∀ (es : List AtlasEntry) (sids : List Nat) (k : Nat),
      (selectVictims es sids k).Pairwise (fun x y =>
        x.2.priority < y.2.priority ∨
          (x.2.priority = y.2.priority ∧ x.1 ≤ y.1))) ∧
    (atlas_atomic_swap sampleAtlas [4]).2.entries =
      [{ sampleEntry1 with state := EntryState.SWAPPED }, sampleEntry2, sampleEntry3,
        { sampleEntry4 with state := EntryState.RESIDENT }] := by
  refine ⟨?_, ?_, by decide⟩
  · intro es sids k p hp
    obtain ⟨hget, hstate, href, -⟩ := selectVictims_mem es sids k p hp
    refine ⟨hget, hstate, href, ?_⟩
    rw [hstate]
    decide
  · intro es sids k
    have h1 := (sortVictims_sorted (victimCandidates es sids)).sublist
      (List.take_sublist k _)
    exact h1.imp (fun hxy => by simpa [victimLE] using hxy)

/-- C3 witness: in the marked sample table under one-page pressure, the
single selected victim is the earliest-inserted priority-10 entry, at table
position 0. -/
theorem eviction_selection_policy_witness :
    (sampleAtlas.entries.map (markFetch [4]))[(0 : Nat)]? = some sampleEntry1 ∧
    sampleEntry1.state = EntryState.RESIDENT ∧ sampleEntry1.ref_count = 0 ∧
    sampleEntry1.state ≠ EntryState.LOCKED := by
  have h := eviction_selection_policy.1 (sampleAtlas.entries.map (markFetch [4]))
    [4] 1 (0, sampleEntry1) (by decide)
  exact h

/-! ### Rollback and success shape of the atomic swap -/

/-- Unmarking undoes marking on any entry that was not already PENDING while
requested (which the busy check rules out). -/
theorem unmarkFetch_markFetch (sids : List Nat) (e : AtlasEntry)
    (h : requested sids e = true → e.state ≠ EntryState.PENDING) :
    unmarkFetch sids (markFetch sids e) = e := by
  obtain ⟨v, pa, s, po, st, pr, rc, ps⟩ := e
  simp only [requested] at h
  cases hreq : sids.contains s
  · have hmem : s ∉ sids := by simpa using hreq
    simp [markFetch, unmarkFetch, isFetch, requested, hreq, hmem]
  · have hmem : s ∈ sids := by simpa using hreq
    have hnp : st ≠ EntryState.PENDING := h hreq
    cases st <;> simp_all [markFetch, unmarkFetch, isFetch, requested]

/-- Spec §4.2: rolling back the fetch marks of step 1 restores the table
exactly, provided the busy check passed. -/
theorem rollback_marks (a : Atlas) (sids : List Nat)
    (hblk : anyBlocked a.entries sids = false) :
    (a.entries.map (markFetch sids)).map (unmarkFetch sids) = a.entries := by
  rw [List.map_map]
  have h1 : a.entries.map (unmarkFetch sids ∘ markFetch sids) = a.entries.map id := by
    apply List.map_congr_left
    intro e he
    have hb := (anyBlocked_eq_false a.entries sids).mp hblk e he
    simp only [Function.comp, id]
    exact unmarkFetch_markFetch sids e (fun hr => (hb hr).1)
  rw [h1, List.map_id]

/-- Any failing atomic swap leaves the atlas exactly as it was before the
call (error checks leave it untouched; capacity failures after marking are
rolled back to the pre-call table). -/
theorem atomic_swap_fail_eq (a : Atlas) (sids : List Nat) (err : AtlasError)
    (h : (atlas_atomic_swap a sids).1 = some err) :
    (atlas_atomic_swap a sids).2 = a := by
  by_cases hpres : allShardsPresent a.entries sids = true
  · by_cases hblk : anyBlocked a.entries sids = true
    · simp [atlas_atomic_swap, hpres, hblk]
    · have hblk2 : anyBlocked a.entries sids = false := by simpa using hblk
      have hroll := rollback_marks a sids hblk2
      by_cases hv : (swapVictims a sids).length < swapNeed a sids
      · rw [atlas_atomic_swap, if_neg (by simp [hpres]), if_neg (by simp [hblk2]),
          if_pos hv]
        rw [hroll]
      · by_cases hsw : a.swap_pages - swappedCount a.entries < swapNeed a sids
        · rw [atlas_atomic_swap, if_neg (by simp [hpres]), if_neg (by simp [hblk2]),
            if_neg hv, if_pos hsw]
          rw [hroll]
        · rw [atlas_atomic_swap, if_neg (by simp [hpres]), if_neg (by simp [hblk2]),
            if_neg hv, if_neg hsw] at h
          exact absurd h (by simp)
  · simp [atlas_atomic_swap, hpres]

/-- The shard of an entry is untouched by marking. -/
theorem requested_markFetch (sids : List Nat) (e : AtlasEntry) :
    requested sids (markFetch sids e) = requested sids e := by
  cases h : isFetch sids e <;> simp [markFetch, h, requested]

/-- The shard of an entry is untouched by fetch completion. -/
theorem requested_completePending (sids : List Nat) (e : AtlasEntry) :
    requested sids (completePending sids e) = requested sids e := by
  rw [completePending]
  split <;> simp [requested]

/-- What `setStateAt` can do to the entry seen at any position. -/
theorem setStateAt_getElem? (es : List AtlasEntry) (i : Nat) (s : EntryState)
    (j : Nat) (e : AtlasEntry) (h : (setStateAt es i s)[j]? = some e) :
    es[j]? = some e ∨
      ∃ x, es[j]? = some x ∧ e = { x with state := s } ∧ i = j := by
  rw [setStateAt] at h
  cases hi : es[i]? with
  | none =>
    rw [hi] at h
    exact Or.inl h
  | some x =>
    rw [hi] at h
    rw [List.getElem?_set] at h
    by_cases hij : i = j
    · subst hij
      rw [if_pos rfl, if_pos (List.getElem?_eq_some_iff.mp hi).1] at h
      injection h with h
      exact Or.inr ⟨x, hi, h.symm, rfl⟩
    · rw [if_neg hij] at h
      exact Or.inl h

/-- What the eviction pass can do to the entry seen at any position: it is
either the entry that was there, or that entry with its state overwritten
to SWAPPED — and in the latter case the position was one of the victim
positions, all of which hold unrequested entries. -/
theorem applyEvict_getElem? (sids : List Nat) :
    ∀ (idxs : List Nat) (es : List AtlasEntry) (j : Nat) (e : AtlasEntry),
    (∀ i ∈ idxs, ∀ x, es[i]? = some x → requested sids x = false) →
    (applyEvict es idxs)[j]? = some e →
    es[j]? = some e ∨
      ∃ x, es[j]? = some x ∧ e = { x with state := EntryState.SWAPPED } ∧
        requested sids x = false := by
  intro idxs
  induction idxs with
  | nil =>
    intro es j e _ h
    exact Or.inl h
  | cons i rest ih =>
    intro es j e hreq h
    rw [applyEvict, List.foldl_cons] at h
    have hreq2 : ∀ i2 ∈ rest, ∀ x, (setStateAt es i EntryState.SWAPPED)[i2]? = some x →
        requested sids x = false := by
      intro i2 hi2 x hx
      rcases setStateAt_getElem? es i EntryState.SWAPPED i2 x hx with h1 | ⟨y, hy, rfl, -⟩
      · exact hreq i2 (List.mem_cons_of_mem i hi2) x h1
      · have := hreq i2 (List.mem_cons_of_mem i hi2) y hy
        simpa [requested] using this
    rcases ih (setStateAt es i EntryState.SWAPPED) j e hreq2 h with h1 | ⟨x, hx, rfl, hrx⟩
    · rcases setStateAt_getElem? es i EntryState.SWAPPED j e h1 with h2 | ⟨y, hy, rfl, rfl⟩
      · exact Or.inl h2
      · exact Or.inr ⟨y, hy, rfl, hreq i (List.mem_cons_self i rest) y hy⟩
    · rcases setStateAt_getElem? es i EntryState.SWAPPED j x hx with h2 | ⟨y, hy, rfl, rfl⟩
      · exact Or.inr ⟨x, h2, rfl, hrx⟩
      · refine Or.inr ⟨y, hy, rfl, ?_⟩
        simpa [requested] using hrx

/-- Every successful atomic swap leaves each requested entry RESIDENT and
the coherency fence applied. -/
theorem atomic_swap_success_resident (a : Atlas) (sids : List Nat)
    (h : (atlas_atomic_swap a sids).1 = none) :
    (∀ e ∈ (atlas_atomic_swap a sids).2.entries,
      requested sids e = true → e.state = EntryState.RESIDENT) ∧
    (atlas_atomic_swap a sids).2.fence_applied = true := by
  by_cases hpres : allShardsPresent a.entries sids = true
  swap
  · rw [atlas_atomic_swap, if_pos (by simp [hpres])] at h
    exact absurd h (by simp)
  by_cases hblk : anyBlocked a.entries sids = true
  · rw [atlas_atomic_swap, if_neg (by simp [hpres]), if_pos hblk] at h
    exact absurd h (by simp)
  have hblk2 : anyBlocked a.entries sids = false := by simpa using hblk
  by_cases hv : (swapVictims a sids).length < swapNeed a sids
  · rw [atlas_atomic_swap, if_neg (by simp [hpres]), if_neg (by simp [hblk2]),
      if_pos hv] at h
    exact absurd h (by simp)
  by_cases hsw : a.swap_pages - swappedCount a.entries < swapNeed a sids
  · rw [atlas_atomic_swap, if_neg (by simp [hpres]), if_neg (by simp [hblk2]),
      if_neg hv, if_pos hsw] at h
    exact absurd h (by simp)
  rw [atlas_atomic_swap, if_neg (by simp [hpres]), if_neg (by simp [hblk2]),
    if_neg hv, if_neg hsw]
  refine ⟨?_, rfl⟩
  intro e he hereq
  have hmem := List.mem_iff_getElem?.mp he
  obtain ⟨j, hj⟩ := hmem
  have hvreq : ∀ i ∈ (swapVictims a sids).map (fun p => p.1), ∀ x,
      ((a.entries.map (markFetch sids)).map (completePending sids))[i]? = some x →
      requested sids x = false := by
    intro i hi x hx
    obtain ⟨p, hp, rfl⟩ := List.mem_map.mp hi
    obtain ⟨hpget, -, -, hpreq⟩ := selectVictims_mem _ sids (swapNeed a sids) p hp
    rw [List.getElem?_map, hpget] at hx
    injection hx with hx
    rw [← hx, requested_completePending]
    exact hpreq
  rcases applyEvict_getElem? sids ((swapVictims a sids).map (fun p => p.1))
      ((a.entries.map (markFetch sids)).map (completePending sids)) j e hvreq hj with
    h1 | ⟨x, hx, rfl, hrx⟩
  swap
  · rw [show requested sids { x with state := EntryState.SWAPPED } = requested sids x
      from by simp [requested]] at hereq
    rw [hrx] at hereq
    exact absurd hereq (by simp)
  · rw [List.getElem?_map] at h1
    cases hy : (a.entries.map (markFetch sids))[j]? with
    | none =>
      rw [hy] at h1
      exact absurd h1 (by simp)
    | some y =>
      rw [hy] at h1
      injection h1 with h1
      rw [List.getElem?_map] at hy
      cases hz : a.entries[j]? with
      | none =>
        rw [hz] at hy
        exact absurd hy (by simp)
      | some z =>
        rw [hz] at hy
        injection hy with hy
        have hzmem : z ∈ a.entries := List.getElem?_mem hz
        have hzreq : requested sids z = true := by
          have : requested sids e = requested sids z := by
            rw [← h1, ← hy, requested_completePending, requested_markFetch]
          rw [← this, hereq]
        have hznp := (anyBlocked_eq_false a.entries sids).mp hblk2 z hzmem hzreq
        rw [← h1, ← hy]
        cases hzst : z.state with
        | RESIDENT =>
          have hmz : markFetch sids z = z := by
            simp [markFetch, isFetch, hzst]
          rw [hmz]
          simp [completePending, hzst]
        | SWAPPED =>
          have hmz : markFetch sids z = { z with state := EntryState.PENDING } := by
            simp [markFetch, isFetch, hzst, hzreq]
          rw [hmz]
          have hzin : z.shard_id ∈ sids := by simpa [requested] using hzreq
          simp [completePending, requested, hzin]
        | PENDING => exact absurd hzst hznp.1
        | LOCKED => exact absurd hzst hznp.2

/-- A successful swap creates no new PENDING entry: any PENDING entry of the
result was already PENDING (at the same position) before the call. -/
theorem atomic_swap_no_new_pending (a : Atlas) (sids : List Nat)
    (h : (atlas_atomic_swap a sids).1 = none) :
    ∀ (j : Nat) (e : AtlasEntry), (atlas_atomic_swap a sids).2.entries[j]? = some e →
      e.state = EntryState.PENDING →
      ∃ x, a.entries[j]? = some x ∧ x.state = EntryState.PENDING := by
  intro j e hj hp
  by_cases hpres : allShardsPresent a.entries sids = true
  swap
  · rw [atlas_atomic_swap, if_pos (by simp [hpres])] at h
    exact absurd h (by simp)
  by_cases hblk : anyBlocked a.entries sids = true
  · rw [atlas_atomic_swap, if_neg (by simp [hpres]), if_pos hblk] at h
    exact absurd h (by simp)
  have hblk2 : anyBlocked a.entries sids = false := by simpa using hblk
  by_cases hv : (swapVictims a sids).length < swapNeed a sids
  · rw [atlas_atomic_swap, if_neg (by simp [hpres]), if_neg (by simp [hblk2]),
      if_pos hv] at h
    exact absurd h (by simp)
  by_cases hsw : a.swap_pages - swappedCount a.entries < swapNeed a sids
  · rw [atlas_atomic_swap, if_neg (by simp [hpres]), if_neg (by simp [hblk2]),
      if_neg hv, if_pos hsw] at h
    exact absurd h (by simp)
  rw [atlas_atomic_swap, if_neg (by simp [hpres]), if_neg (by simp [hblk2]),
    if_neg hv, if_neg hsw] at hj
  have hj2 : (applyEvict ((a.entries.map (markFetch sids)).map (completePending sids))
      ((swapVictims a sids).map (fun p => p.1)))[j]? = some e := hj
  have hvreq : ∀ i ∈ (swapVictims a sids).map (fun p => p.1), ∀ x,
      ((a.entries.map (markFetch sids)).map (completePending sids))[i]? = some x →
      requested sids x = false := by
    intro i hi x hx
    obtain ⟨p2, hp2, rfl⟩ := List.mem_map.mp hi
    obtain ⟨hpget, -, -, hpreq⟩ := selectVictims_mem _ sids (swapNeed a sids) p2 hp2
    rw [List.getElem?_map, hpget] at hx
    injection hx with hx
    rw [← hx, requested_completePending]
    exact hpreq
  rcases applyEvict_getElem? sids ((swapVictims a sids).map (fun p => p.1))
      ((a.entries.map (markFetch sids)).map (completePending sids)) j e hvreq hj2 with
    h1 | ⟨x, hx, rfl, -⟩
  swap
  · exact absurd hp (by simp)
  rw [List.getElem?_map] at h1
  cases hy : (a.entries.map (markFetch sids))[j]? with
  | none =>
    rw [hy] at h1
    exact absurd h1 (by simp)
  | some y =>
    rw [hy] at h1
    injection h1 with h1
    rw [List.getElem?_map] at hy
    cases hz : a.entries[j]? with
    | none =>
      rw [hz] at hy
      exact absurd hy (by simp)
    | some z =>
      rw [hz] at hy
      injection hy with hy
      refine ⟨z, rfl, ?_⟩
      cases hzst : z.state with
      | PENDING => rfl
      | RESIDENT =>
        have he : e = z := by
          rw [← h1, ← hy]
          simp [markFetch, isFetch, completePending, hzst]
        rw [he, hzst] at hp
        exact absurd hp (by decide)
      | LOCKED =>
        have he : e = z := by
          rw [← h1, ← hy]
          simp [markFetch, isFetch, completePending, hzst]
        rw [he, hzst] at hp
        exact absurd hp (by decide)
      | SWAPPED =>
        cases hzr : requested sids z
        · have hznotin : z.shard_id ∉ sids := by simpa [requested] using hzr
          have he : e = z := by
            rw [← h1, ← hy]
            simp [markFetch, isFetch, completePending, requested, hzst, hznotin]
          rw [he, hzst] at hp
          exact absurd hp (by decide)
        · have hzin : z.shard_id ∈ sids := by simpa [requested] using hzr
          have he : e.state = EntryState.RESIDENT := by
            rw [← h1, ← hy]
            simp [markFetch, isFetch, completePending, requested, hzst, hzin]
          rw [he] at hp
          exact absurd hp (by decide)

/-- C1: AtomicSwap is all-or-nothing: on success every requested shard's
entry is RESIDENT and the coherency fence has been applied (and no entry is
newly PENDING); on any failure the table equals its pre-call state (changed
entries rolled back), so no entry is left stuck PENDING by the call. -/
theorem atomic_swap_all_or_nothing (a : Atlas) (sids : List Nat) :
    ((atlas_atomic_swap a sids).1 = none →
      (∀ e ∈ (atlas_atomic_swap a sids).2.entries,
        requested sids e = true → e.state = EntryState.RESIDENT) ∧
      (atlas_atomic_swap a sids).2.fence_applied = true ∧
      (∀ (j : Nat) (e : AtlasEntry), (atlas_atomic_swap a sids).2.entries[j]? = some e →
        e.state = EntryState.PENDING →
        ∃ x, a.entries[j]? = some x ∧ x.state = EntryState.PENDING)) ∧
    (∀ err, (atlas_atomic_swap a sids).1 = some err →
      (atlas_atomic_swap a sids).2 = a) :=
  ⟨fun h => ⟨(atomic_swap_success_resident a sids h).1,
    (atomic_swap_success_resident a sids h).2, atomic_swap_no_new_pending a sids h⟩,
    atomic_swap_fail_eq a sids⟩

/-- C1 witness: swapping shard 4 into the full sample pool succeeds with
every requested entry RESIDENT and the fence applied; requesting the absent
shard 9 fails and leaves the sample atlas untouched. -/
theorem atomic_swap_all_or_nothing_witness :
    ((∀ e ∈ (atlas_atomic_swap sampleAtlas [4]).2.entries,
      requested [4] e = true → e.state = EntryState.RESIDENT) ∧
    (atlas_atomic_swap sampleAtlas [4]).2.fence_applied = true) ∧
    (atlas_atomic_swap sampleAtlas [9]).2 = sampleAtlas := by
  have hs := (atomic_swap_all_or_nothing sampleAtlas [4]).1 (by decide)
  exact ⟨⟨hs.1, hs.2.1⟩,
    (atomic_swap_all_or_nothing sampleAtlas [9]).2 AtlasError.NotFound (by decide)⟩

/-- C4: failures never corrupt the table.  Busy, NotFound, DuplicateAddress,
InvalidTransition and CapacityExceeded failures of AddEntry, RemoveEntry and
UpdateState occur before any PENDING mark and return the atlas exactly
unchanged; the post-marking failures of the atomic swap (CapacityExceeded,
OutOfSwapSpace) roll their PENDING marks back so the returned table equals
the pre-call one.  PartialSwapFailure is unreachable in the model, whose
device copies always succeed. -/
theorem failure_rollback (a : Atlas) :
    (∀ v p sid pr err, (atlas_add_entry a v p sid pr).1 = some err →
      (atlas_add_entry a v p sid pr).2 = a) ∧
    (∀ sid err, (atlas_remove_entry a sid).1 = some err →
      (atlas_remove_entry a sid).2 = a) ∧
    (∀ sid ns err, (atlas_update_state a sid ns).1 = some err →
      (atlas_update_state a sid ns).2 = a) ∧
    (∀ sids err, (atlas_atomic_swap a sids).1 = some err →
      (atlas_atomic_swap a sids).2 = a) := by
  refine ⟨?_, ?_, ?_, fun sids err h => atomic_swap_fail_eq a sids err h⟩
  · intro v p sid pr err h
    simp only [atlas_add_entry] at h ⊢
    by_cases h1 : a.capacity ≤ a.entries.length
    · rw [if_pos h1]
    rw [if_neg h1] at h ⊢
    by_cases h2 : (a.entries.any fun e => decide (e.virtual_addr = v)) = true
    · rw [if_pos h2]
    rw [if_neg h2] at h ⊢
    by_cases hp : p < a.memory_pages
    · simp only [if_pos hp] at h ⊢
      by_cases hg : a.memory_pages ≤ residentCount a.entries
      · rw [if_pos (by simp [hg])]
      · rw [if_neg (by simp [hg]), if_neg (by simp)] at h
        exact absurd h (by simp)
    · simp only [if_neg hp] at h ⊢
      by_cases hg : a.swap_pages ≤ swappedCount a.entries
      · rw [if_neg (by simp), if_pos (by simp [hg])]
      · rw [if_neg (by simp), if_neg (by simp [hg])] at h
        exact absurd h (by simp)
  · intro sid err h
    cases hf : findByShard a.entries sid with
    | none => simp [atlas_remove_entry, hf]
    | some e =>
      by_cases hb : e.state = EntryState.PENDING ∨ 0 < e.ref_count
      · simp [atlas_remove_entry, hf, hb]
      · have hnb := not_or.mp hb
        have hnb2 := hnb.2
        rw [remove_entry_success a sid e hf hnb.1 (by omega)] at h
        exact absurd h (by simp)
  · intro sid ns err h
    cases hf : findByShard a.entries sid with
    | none => simp [atlas_update_state, hf]
    | some e =>
      by_cases hall : allowedTransition e.state ns e.prev_state = true
      · by_cases hg1 : ns = EntryState.RESIDENT ∧ a.memory_pages ≤ residentCount a.entries
        · simp only [atlas_update_state, hf, hg1]
          simp [hg1.1]
          split <;> rfl
        by_cases hg2 : ns = EntryState.SWAPPED ∧ a.swap_pages ≤ swappedCount a.entries
        · simp only [atlas_update_state, hf, hg2]
          simp [hg1, hg2.1]
          split <;> rfl
        · simp [atlas_update_state, hf, hall, hg1, hg2] at h
      · simp [atlas_update_state, hf, hall]

/-- C4 witness: a duplicate add, a remove and an update of an absent shard,
and a swap request for an absent shard all fail and return the sample atlas
unchanged. -/
theorem failure_rollback_witness :
    (atlas_add_entry sampleAtlas 100 0 9 1).2 = sampleAtlas ∧
    (atlas_remove_entry sampleAtlas 9).2 = sampleAtlas ∧
    (atlas_update_state sampleAtlas 1 EntryState.SWAPPED).2 = sampleAtlas ∧
    (atlas_atomic_swap sampleAtlas [9]).2 = sampleAtlas := by
  refine ⟨(failure_rollback sampleAtlas).1 100 0 9 1
      AtlasError.DuplicateAddress (by decide),
    (failure_rollback sampleAtlas).2.1 9 AtlasError.NotFound (by decide),
    (failure_rollback sampleAtlas).2.2.1 1 EntryState.SWAPPED
      AtlasError.InvalidTransition (by decide),
    (failure_rollback sampleAtlas).2.2.2 [9] AtlasError.NotFound (by decide)⟩

/-! ### The footprint invariant (spec §3) -/

/-- The capacity invariant of spec §3: the RESIDENT footprint never exceeds
the MemoryPool capacity and the SWAPPED footprint never exceeds the
SwapStore capacity (each entry maps one page). -/
def footprintInv (a : Atlas) : Prop :=
  residentCount a.entries ≤ a.memory_pages ∧ swappedCount a.entries ≤ a.swap_pages

theorem countP_split {α : Type} (q r : α → Bool) (l : List α) :
    l.countP q = l.countP (fun x => q x && r x) + l.countP (fun x => q x && !r x) := by
  induction l with
  | nil => simp
  | cons x xs ih =>
    simp only [List.countP_cons]
    cases hq : q x <;> cases hr : r x <;> simp [hq, hr] <;> omega

theorem countP_or_disjoint {α : Type} (q r : α → Bool) (l : List α)
    (h : ∀ x ∈ l, ¬(q x = true ∧ r x = true)) :
    l.countP (fun x => q x || r x) = l.countP q + l.countP r := by
  induction l with
  | nil => simp
  | cons x xs ih =>
    have hx := h x (List.mem_cons_self x xs)
    have hxs : ∀ y ∈ xs, ¬(q y = true ∧ r y = true) :=
      fun y hy => h y (List.mem_cons_of_mem x hy)
    simp only [List.countP_cons]
    cases hq : q x <;> cases hr : r x <;> simp_all <;> omega

/-- `modifyFirst` with no match changes nothing. -/
theorem modifyFirst_of_find?_none {α : Type} (p : α → Bool) (f : α → α)
    (es : List α) (h : es.find? p = none) : modifyFirst p f es = es := by
  induction es with
  | nil => rfl
  | cons x xs ih =>
    rw [List.find?_eq_none] at h
    have hx : p x = false := by
      have := h x (List.mem_cons_self x xs)
      simpa using this
    rw [modifyFirst, if_neg (by simp [hx])]
    rw [ih (List.find?_eq_none.mpr (fun y hy => h y (List.mem_cons_of_mem x hy)))]

/-- Marking fetches does not change the RESIDENT footprint. -/
theorem residentCount_map_markFetch (es : List AtlasEntry) (sids : List Nat) :
    residentCount (es.map (markFetch sids)) = residentCount es := by
  rw [residentCount, residentCount, List.countP_map]
  apply List.countP_congr
  intro e _
  cases hf : isFetch sids e
  · simp [Function.comp, markFetch, hf]
  · have hst : e.state = EntryState.SWAPPED := by
      simp only [isFetch, Bool.and_eq_true, decide_eq_true_eq] at hf
      exact hf.2
    simp [Function.comp, markFetch, hf, hst]

/-- Marking fetches moves exactly the fetched entries out of the SWAPPED
footprint. -/
theorem swappedCount_map_markFetch (es : List AtlasEntry) (sids : List Nat) :
    swappedCount (es.map (markFetch sids)) + es.countP (isFetch sids) =
      swappedCount es := by
  simp only [swappedCount]
  have hsplit := countP_split (fun e => decide (e.state = EntryState.SWAPPED))
    (isFetch sids) es
  have h1 : (es.map (markFetch sids)).countP
        (fun e => decide (e.state = EntryState.SWAPPED)) =
      es.countP (fun e => decide (e.state = EntryState.SWAPPED) && !isFetch sids e) := by
    rw [List.countP_map]
    apply List.countP_congr
    intro e _
    cases hf : isFetch sids e
    · simp [Function.comp, markFetch, hf]
    · have hst : e.state = EntryState.SWAPPED := by
        simp only [isFetch, Bool.and_eq_true, decide_eq_true_eq] at hf
        exact hf.2
      simp [Function.comp, markFetch, hf, hst]
  have h2 : es.countP (fun e => decide (e.state = EntryState.SWAPPED) && isFetch sids e) =
      es.countP (isFetch sids) := by
    apply List.countP_congr
    intro e _
    cases hf : isFetch sids e
    · simp [hf]
    · have hst : e.state = EntryState.SWAPPED := by
        simp only [isFetch, Bool.and_eq_true, decide_eq_true_eq] at hf
        exact hf.2
      simp [hf, hst]
  omega

/-- With the busy check passed, the marked table holds exactly the fetch
count of requested-PENDING entries. -/
theorem pendingReq_count (es : List AtlasEntry) (sids : List Nat)
    (hblk : anyBlocked es sids = false) :
    (es.map (markFetch sids)).countP
      (fun e => requested sids e && decide (e.state = EntryState.PENDING)) =
      es.countP (isFetch sids) := by
  rw [List.countP_map]
  apply List.countP_congr
  intro e he
  have hb := (anyBlocked_eq_false es sids).mp hblk e he
  cases hf : isFetch sids e
  · constructor
    · intro hcontr
      simp only [Function.comp, markFetch, hf, Bool.false_eq_true, if_false,
        Bool.and_eq_true, decide_eq_true_eq] at hcontr
      exact absurd hcontr.2 (hb hcontr.1).1
    · intro hcontr
      exact absurd hcontr (by simp [hf])
  · have hreq : requested sids e = true := by
      simp only [isFetch, Bool.and_eq_true] at hf
      exact hf.1
    have hin : e.shard_id ∈ sids := by simpa [requested] using hreq
    simp [Function.comp, markFetch, hf, requested, hin]

/-- Completing the fetches adds exactly the requested-PENDING entries to the
RESIDENT footprint. -/
theorem residentCount_map_completePending (es1 : List AtlasEntry) (sids : List Nat) :
    residentCount (es1.map (completePending sids)) =
      residentCount es1 +
        es1.countP (fun e => requested sids e && decide (e.state = EntryState.PENDING)) := by
  have h1 : residentCount (es1.map (completePending sids)) =
      es1.countP (fun e => decide (e.state = EntryState.RESIDENT) ||
        (requested sids e && decide (e.state = EntryState.PENDING))) := by
    rw [residentCount, List.countP_map]
    apply List.countP_congr
    intro e _
    cases hc : requested sids e && decide (e.state = EntryState.PENDING)
    · simp only [completePending, hc, Bool.false_eq_true, if_false, Function.comp]
      simp [hc]
    · simp only [completePending, hc, if_true, Function.comp]
      simp [hc]
  rw [h1, countP_or_disjoint]
  · rw [residentCount]
  · intro e _
    simp only [Bool.and_eq_true, decide_eq_true_eq, not_and]
    intro h1 h2
    simp [h1]

/-- Completing the fetches does not touch the SWAPPED footprint. -/
theorem swappedCount_map_completePending (es1 : List AtlasEntry) (sids : List Nat) :
    swappedCount (es1.map (completePending sids)) = swappedCount es1 := by
  rw [swappedCount, swappedCount, List.countP_map]
  apply List.countP_congr
  intro e _
  cases hc : requested sids e && decide (e.state = EntryState.PENDING)
  · simp [Function.comp, completePending, hc]
  · have hreq : requested sids e = true := by
      simp only [Bool.and_eq_true] at hc
      exact hc.1
    have hst : e.state = EntryState.PENDING := by
      simp only [Bool.and_eq_true, decide_eq_true_eq] at hc
      exact hc.2
    simp [Function.comp, completePending, hc, hreq, hst]

/-- Evicting distinct positions that all hold RESIDENT entries moves exactly
that many pages from the resident footprint to the swapped footprint. -/
theorem applyEvict_counts : ∀ (idxs : List Nat) (es : List AtlasEntry),
    idxs.Nodup →
    (∀ i ∈ idxs, ∃ e, es[i]? = some e ∧ e.state = EntryState.RESIDENT) →
    residentCount (applyEvict es idxs) + idxs.length = residentCount es ∧
    swappedCount (applyEvict es idxs) = swappedCount es + idxs.length := by
  intro idxs
  induction idxs with
  | nil =>
    intro es _ _
    simp [applyEvict]
  | cons i rest ih =>
    intro es hnd hres
    obtain ⟨e, hei, hest⟩ := hres i (List.mem_cons_self i rest)
    obtain ⟨hnd1, hnd2⟩ := List.nodup_cons.mp hnd
    obtain ⟨hlt, hgeq⟩ := List.getElem?_eq_some_iff.mp hei
    have hset : setStateAt es i EntryState.SWAPPED =
        es.set i { e with state := EntryState.SWAPPED } := by
      rw [setStateAt, hei]
    have happ : applyEvict es (i :: rest) =
        applyEvict (es.set i { e with state := EntryState.SWAPPED }) rest := by
      rw [applyEvict, List.foldl_cons, ← hset]
      rfl
    have hcnt1 := List.countP_set (fun x => decide (x.state = EntryState.RESIDENT))
      es i { e with state := EntryState.SWAPPED } hlt
    have hcnt2 := List.countP_set (fun x => decide (x.state = EntryState.SWAPPED))
      es i { e with state := EntryState.SWAPPED } hlt
    rw [hgeq] at hcnt1 hcnt2
    simp [hest] at hcnt1 hcnt2
    have hpos : 0 < residentCount es := by
      rw [residentCount, List.countP_pos_iff]
      exact ⟨e, List.getElem?_mem hei, by simp [hest]⟩
    have hrest : ∀ i2 ∈ rest, ∃ e2,
        (es.set i { e with state := EntryState.SWAPPED })[i2]? = some e2 ∧
          e2.state = EntryState.RESIDENT := by
      intro i2 hi2
      obtain ⟨e2, he2, hs2⟩ := hres i2 (List.mem_cons_of_mem i hi2)
      refine ⟨e2, ?_, hs2⟩
      rw [List.getElem?_set, if_neg (fun hh => hnd1 (by rw [hh]; exact hi2))]
      exact he2
    obtain ⟨ih1, ih2⟩ := ih (es.set i { e with state := EntryState.SWAPPED }) hnd2 hrest
    rw [happ]
    simp only [residentCount, swappedCount] at ih1 ih2 hpos ⊢
    simp only [List.length_cons]
    omega

/-- If the victim-shortage check passed, exactly `swapNeed` victims were
selected. -/
theorem swapVictims_length (a : Atlas) (sids : List Nat)
    (h : ¬ (swapVictims a sids).length < swapNeed a sids) :
    (swapVictims a sids).length = swapNeed a sids := by
  have hle : (swapVictims a sids).length ≤ swapNeed a sids := by
    rw [swapVictims, selectVictims, List.length_take]
    exact min_le_left _ _
  omega

/-- The victim positions are pairwise distinct. -/
theorem swapVictims_fst_nodup (a : Atlas) (sids : List Nat) :
    ((swapVictims a sids).map (fun p => p.1)).Nodup := by
  have hceta : (fun (p : Nat × AtlasEntry) => p.1) = Prod.fst := rfl
  have hc : ((victimCandidates (a.entries.map (markFetch sids)) sids).map
      (fun p => p.1)).Nodup := by
    have hsub : (victimCandidates (a.entries.map (markFetch sids)) sids).Sublist
        (a.entries.map (markFetch sids)).enum := List.filter_sublist _
    refine List.Nodup.sublist (hsub.map (fun p => p.1)) ?_
    rw [hceta, List.enum_map_fst]
    exact List.nodup_range _
  have hperm := (sortVictims_perm
    (victimCandidates (a.entries.map (markFetch sids)) sids)).map
    (fun (p : Nat × AtlasEntry) => p.1)
  have hnd2 : ((sortVictims (victimCandidates (a.entries.map (markFetch sids)) sids)).map
      (fun p => p.1)).Nodup := hperm.nodup_iff.mpr hc
  rw [swapVictims, selectVictims]
  exact List.Nodup.sublist ((List.take_sublist _ _).map _) hnd2

/-- Every victim position holds a RESIDENT entry of the fetch-completed
table. -/
theorem swapVictims_positions_resident (a : Atlas) (sids : List Nat) :
    ∀ i ∈ (swapVictims a sids).map (fun p => p.1),
      ∃ e, ((a.entries.map (markFetch sids)).map (completePending sids))[i]? = some e ∧
        e.state = EntryState.RESIDENT := by
  intro i hi
  obtain ⟨p, hp, rfl⟩ := List.mem_map.mp hi
  obtain ⟨hget, hst, -, -⟩ := selectVictims_mem _ sids (swapNeed a sids) p hp
  refine ⟨completePending sids p.2, ?_, ?_⟩
  · rw [List.getElem?_map, hget]
    rfl
  · simp [completePending, hst]

/-- The checks a successful swap must have passed, and the shape of the
atlas it returns. -/
theorem atomic_swap_success_shape (a : Atlas) (sids : List Nat)
    (h : (atlas_atomic_swap a sids).1 = none) :
    anyBlocked a.entries sids = false ∧
    ¬ (swapVictims a sids).length < swapNeed a sids ∧
    ¬ a.swap_pages - swappedCount a.entries < swapNeed a sids ∧
    (atlas_atomic_swap a sids).2 = { a with
      entries := (applyEvict ((a.entries.map (markFetch sids)).map (completePending sids))
        ((swapVictims a sids).map (fun p => p.1))),
      fence_applied := true } := by
  by_cases hpres : allShardsPresent a.entries sids = true
  swap
  · rw [atlas_atomic_swap, if_pos (by simp [hpres])] at h
    exact absurd h (by simp)
  by_cases hblk : anyBlocked a.entries sids = true
  · rw [atlas_atomic_swap, if_neg (by simp [hpres]), if_pos hblk] at h
    exact absurd h (by simp)
  have hblk2 : anyBlocked a.entries sids = false := by simpa using hblk
  by_cases hv : (swapVictims a sids).length < swapNeed a sids
  · rw [atlas_atomic_swap, if_neg (by simp [hpres]), if_neg (by simp [hblk2]),
      if_pos hv] at h
    exact absurd h (by simp)
  by_cases hsw : a.swap_pages - swappedCount a.entries < swapNeed a sids
  · rw [atlas_atomic_swap, if_neg (by simp [hpres]), if_neg (by simp [hblk2]),
      if_neg hv, if_pos hsw] at h
    exact absurd h (by simp)
  refine ⟨hblk2, hv, hsw, ?_⟩
  rw [atlas_atomic_swap, if_neg (by simp [hpres]), if_neg (by simp [hblk2]),
    if_neg hv, if_neg hsw]

/-- The atomic swap preserves the footprint invariant. -/
theorem swap_preserves_inv (a : Atlas) (sids : List Nat) (hInv : footprintInv a) :
    footprintInv (atlas_atomic_swap a sids).2 := by
  cases hres : (atlas_atomic_swap a sids).1 with
  | some err =>
    rw [atomic_swap_fail_eq a sids err hres]
    exact hInv
  | none =>
    obtain ⟨hblk2, hv, hsw, hshape⟩ := atomic_swap_success_shape a sids hres
    rw [hshape]
    obtain ⟨hR, hS⟩ := hInv
    obtain ⟨hc1, hc2⟩ := applyEvict_counts ((swapVictims a sids).map (fun p => p.1))
      ((a.entries.map (markFetch sids)).map (completePending sids))
      (swapVictims_fst_nodup a sids) (swapVictims_positions_resident a sids)
    have hlen : ((swapVictims a sids).map (fun p => p.1)).length = swapNeed a sids := by
      rw [List.length_map]
      exact swapVictims_length a sids hv
    have e1 := residentCount_map_markFetch a.entries sids
    have e2 := swappedCount_map_markFetch a.entries sids
    have e3 := pendingReq_count a.entries sids hblk2
    have e4 := residentCount_map_completePending (a.entries.map (markFetch sids)) sids
    have e5 := swappedCount_map_completePending (a.entries.map (markFetch sids)) sids
    have hneed : swapNeed a sids = a.entries.countP (isFetch sids) -
        (a.memory_pages - residentCount (a.entries.map (markFetch sids))) := by
      rw [swapNeed, swapFetchCount]
    refine ⟨?_, ?_⟩
    · show residentCount (applyEvict
        ((a.entries.map (markFetch sids)).map (completePending sids))
        ((swapVictims a sids).map (fun p => p.1))) ≤ a.memory_pages
      omega
    · show swappedCount (applyEvict
        ((a.entries.map (markFetch sids)).map (completePending sids))
        ((swapVictims a sids).map (fun p => p.1))) ≤ a.swap_pages
      omega

/-- AddEntry preserves the footprint invariant. -/
theorem add_preserves_inv (a : Atlas) (v p sid pr : Nat) (hInv : footprintInv a) :
    footprintInv (atlas_add_entry a v p sid pr).2 := by
  obtain ⟨hr, hs⟩ := hInv
  simp only [atlas_add_entry]
  by_cases h1 : a.capacity ≤ a.entries.length
  · rw [if_pos h1]
    exact ⟨hr, hs⟩
  rw [if_neg h1]
  by_cases h2 : (a.entries.any fun e => decide (e.virtual_addr = v)) = true
  · rw [if_pos h2]
    exact ⟨hr, hs⟩
  rw [if_neg h2]
  by_cases hp : p < a.memory_pages
  · simp only [if_pos hp]
    by_cases hg : a.memory_pages ≤ residentCount a.entries
    · rw [if_pos (by simp [hg])]
      exact ⟨hr, hs⟩
    · rw [if_neg (by simp [hg]), if_neg (by simp)]
      refine ⟨?_, ?_⟩
      · simp only [residentCount, List.countP_append] at hg ⊢
        simp
        omega
      · simp only [swappedCount, List.countP_append] at hs ⊢
        simp
        omega
  · simp only [if_neg hp]
    by_cases hg : a.swap_pages ≤ swappedCount a.entries
    · rw [if_neg (by simp), if_pos (by simp [hg])]
      exact ⟨hr, hs⟩
    · rw [if_neg (by simp), if_neg (by simp [hg])]
      refine ⟨?_, ?_⟩
      · simp only [residentCount, List.countP_append] at hr ⊢
        simp
        omega
      · simp only [swappedCount, List.countP_append] at hg hs ⊢
        simp
        omega

/-- RemoveEntry preserves the footprint invariant. -/
theorem remove_preserves_inv (a : Atlas) (sid : Nat) (hInv : footprintInv a) :
    footprintInv (atlas_remove_entry a sid).2 := by
  obtain ⟨hr, hs⟩ := hInv
  cases hf : findByShard a.entries sid with
  | none =>
    simp only [atlas_remove_entry, hf]
    exact ⟨hr, hs⟩
  | some e =>
    by_cases hb : e.state = EntryState.PENDING ∨ 0 < e.ref_count
    · simp only [atlas_remove_entry, hf, if_pos hb]
      exact ⟨hr, hs⟩
    · simp only [atlas_remove_entry, hf, if_neg hb]
      have hfind : a.entries.find? (fun x => decide (x.shard_id = sid)) = some e := hf
      have hc1 := eraseP_countP (fun x => decide (x.shard_id = sid))
        (fun x => decide (x.state = EntryState.RESIDENT)) a.entries e hfind
      have hc2 := eraseP_countP (fun x => decide (x.shard_id = sid))
        (fun x => decide (x.state = EntryState.SWAPPED)) a.entries e hfind
      refine ⟨?_, ?_⟩
      · simp only [residentCount] at hr ⊢
        split_ifs at hc1 <;> omega
      · simp only [swappedCount] at hs ⊢
        split_ifs at hc2 <;> omega

/-- UpdateState preserves the footprint invariant (a transition into a full
pool region is refused). -/
theorem update_preserves_inv (a : Atlas) (sid : Nat) (ns : EntryState)
    (hInv : footprintInv a) :
    footprintInv (atlas_update_state a sid ns).2 := by
  obtain ⟨hr, hs⟩ := hInv
  cases hf : findByShard a.entries sid with
  | none =>
    simp only [atlas_update_state, hf]
    exact ⟨hr, hs⟩
  | some e =>
    by_cases hall : allowedTransition e.state ns e.prev_state = true
    · by_cases hg1 : ns = EntryState.RESIDENT ∧ a.memory_pages ≤ residentCount a.entries
      · simp only [atlas_update_state, hf]
        rw [if_neg (by simp [hall]), if_pos hg1]
        exact ⟨hr, hs⟩
      by_cases hg2 : ns = EntryState.SWAPPED ∧ a.swap_pages ≤ swappedCount a.entries
      · simp only [atlas_update_state, hf]
        rw [if_neg (by simp [hall]), if_neg hg1, if_pos hg2]
        exact ⟨hr, hs⟩
      · simp only [atlas_update_state, hf]
        rw [if_neg (by simp [hall]), if_neg hg1, if_neg hg2]
        have hfind : a.entries.find? (fun x => decide (x.shard_id = sid)) = some e := hf
        have hc1 := modifyFirst_countP (fun x => decide (x.shard_id = sid))
          (fun x => applyTransition x ns)
          (fun x => decide (x.state = EntryState.RESIDENT)) a.entries e hfind
        have hc2 := modifyFirst_countP (fun x => decide (x.shard_id = sid))
          (fun x => applyTransition x ns)
          (fun x => decide (x.state = EntryState.SWAPPED)) a.entries e hfind
        have hstate : (applyTransition e ns).state = ns := by
          rw [applyTransition]
          split <;> rfl
        simp only [hstate] at hc1 hc2
        refine ⟨?_, ?_⟩
        · simp only [residentCount] at hr ⊢
          by_cases hns : ns = EntryState.RESIDENT
          · have hgr : ¬ a.memory_pages ≤ residentCount a.entries := fun hh => hg1 ⟨hns, hh⟩
            simp only [residentCount] at hgr
            simp only [hns, decide_eq_true_eq] at hc1
            split_ifs at hc1
            all_goals simp_all
            all_goals omega
          · simp only [decide_eq_true_eq] at hc1
            rw [if_neg (fun hh => hns hh)] at hc1
            split_ifs at hc1 <;> omega
        · simp only [swappedCount] at hs ⊢
          by_cases hns : ns = EntryState.SWAPPED
          · have hgs : ¬ a.swap_pages ≤ swappedCount a.entries := fun hh => hg2 ⟨hns, hh⟩
            simp only [swappedCount] at hgs
            simp only [hns, decide_eq_true_eq] at hc2
            split_ifs at hc2
            all_goals simp_all
            all_goals omega
          · simp only [decide_eq_true_eq] at hc2
            rw [if_neg (fun hh => hns hh)] at hc2
            split_ifs at hc2 <;> omega
    · simp only [atlas_update_state, hf]
      rw [if_pos (by simpa using hall)]
      exact ⟨hr, hs⟩

/-- Releasing a reference preserves the footprint invariant (states are
untouched). -/
theorem release_preserves_inv (a : Atlas) (sid : Nat) (hInv : footprintInv a) :
    footprintInv (atlas_ref_release a sid) := by
  obtain ⟨hr, hs⟩ := hInv
  cases hf : a.entries.find? (fun e => decide (e.shard_id = sid)) with
  | none =>
    simp only [atlas_ref_release]
    rw [modifyFirst_of_find?_none _ _ _ hf]
    exact ⟨hr, hs⟩
  | some e =>
    simp only [atlas_ref_release]
    have hc1 := modifyFirst_countP (fun x => decide (x.shard_id = sid))
      (fun x => { x with ref_count := x.ref_count - 1 })
      (fun x => decide (x.state = EntryState.RESIDENT)) a.entries e hf
    have hc2 := modifyFirst_countP (fun x => decide (x.shard_id = sid))
      (fun x => { x with ref_count := x.ref_count - 1 })
      (fun x => decide (x.state = EntryState.SWAPPED)) a.entries e hf
    refine ⟨?_, ?_⟩
    · simp only [residentCount] at hr ⊢
      split_ifs at hc1 <;> omega
    · simp only [swappedCount] at hs ⊢
      split_ifs at hc2 <;> omega

/-- Every single operation preserves the footprint invariant. -/
theorem op_preserves_inv (a : Atlas) (op : AtlasOp) (hInv : footprintInv a) :
    footprintInv (applyOp a op) := by
  cases op with
  | add v p s pr => exact add_preserves_inv a v p s pr hInv
  | remove s => exact remove_preserves_inv a s hInv
  | update s ns => exact update_preserves_inv a s ns hInv
  | swap sids => exact swap_preserves_inv a sids hInv
  | release s => exact release_preserves_inv a s hInv
  | fence => exact hInv

/-- The footprint invariant is preserved along any run. -/
theorem runOps_preserves_inv (ops : List AtlasOp) : ∀ (a : Atlas), footprintInv a →
    footprintInv (runOps a ops) := by
  induction ops with
  | nil =>
    intro a h
    exact h
  | cons op rest ih =>
    intro a h
    rw [runOps, List.foldl_cons]
    exact ih _ (op_preserves_inv a op h)

/-- C2: after every sequence of operations (AddEntry, RemoveEntry,
UpdateState, AtomicSwap — plus reference releases and fences) starting from
a freshly initialized atlas, the RESIDENT page footprint never exceeds the
MemoryPool capacity and the SWAPPED page footprint never exceeds the
SwapStore capacity.  Since every prefix of a run is itself a run, this holds
after every intermediate operation as well. -/
theorem footprint_invariant_runOps (capacity memory_pages swap_pages : Nat)
    (ops : List AtlasOp) :
    footprintInv (runOps (atlas_init capacity memory_pages swap_pages) ops) :=
  runOps_preserves_inv ops _ ⟨Nat.zero_le _, Nat.zero_le _⟩

end GGUFShardAtlas
